import Mathlib

/-!
Shallow embedding of the client-side task/transfer core of the repository:

* `useApiWithRetry` (resilient request executor, src/unnamed/part_003 lines
  261–517): `getDebounceKey`, the `/api/` prefix stripping, throttle, dedup,
  retry recursion, and the `debounce` wrapper.
* `useDownloadProgress` (streaming download manager, src/unnamed/part_003
  lines 27–210): abort-timeout handling, content-disposition filename
  resolution, progress accounting, chunk assembly.
* `useIsWorking` (task orchestrator, src/unnamed/part_002): polling loop,
  timers, single-fire completion guard.

Timers and async resolution are modelled as an explicit event-list
semantics over a state record; virtual time is in milliseconds.  Network
outcomes are supplied by oracles (lists/booleans) carried by events.
-/

namespace PrivateAvatar

/-! ## Resilient request executor (`useApiWithRetry`, part_003 lines 261–517) -/

/-- `url.startsWith("/api/")` from the source, on the character list of the
string. -/
def isApiUrl (url : String) : Bool :=
  url.data.take 5 = ['/', 'a', 'p', 'i', '/']

/-- `const cleanUrl = url.startsWith("/api/") ? url.substring(4) : url`
(part_003 line 303).  JS `substring(4)` drops the first four characters. -/
def cleanUrlOf (url : String) : String :=
  if isApiUrl url then ⟨url.data.drop 4⟩ else url

/-- `getDebounceKey(method, url) = `${method}:${url}`` (part_003 line 288). -/
def getDebounceKey (method url : String) : String :=
  method ++ ":" ++ url

/-- The key actually used by `executeRequest` and `debounce`: the debounce
key of the cleaned URL (part_003 lines 303–306). -/
def requestKey (method url : String) : String :=
  getDebounceKey method (cleanUrlOf url)

/-- Update an association list at a key (model of writing to
`lastRequestTimes.current[key]`). -/
def setAssoc (k : String) (v : Nat) : List (String × Nat) → List (String × Nat)
  | [] => [(k, v)]
  | (k', v') :: rest => if k' = k then (k, v) :: rest else (k', v') :: setAssoc k v rest

/-- Lookup with JS default `|| 0`. -/
def getAssoc (k : String) : List (String × Nat) → Nat
  | [] => 0
  | (k', v') :: rest => if k' = k then v' else getAssoc k rest

/-- Mutable state shared across calls of one `useApiWithRetry` instance:
`lastRequestTimes.current`, `pendingRequests.current`, and the current
clock (`Date.now()`). -/
structure ExecState where
  lastTimes : List (String × Nat)
  pending : List String
  now : Nat
deriving DecidableEq, Repr

/-- Result of one `executeRequest` call: the response (`none` models the
`null` returns), the state left behind, and the virtual times at which the
underlying network calls (the `axios.*` switch) were issued, in order. -/
structure ExecResult where
  response : Option Nat
  state : ExecState
  attempts : List Nat
deriving DecidableEq, Repr

/-- Set the pending flag for a key (model of
`pendingRequests.current[key] = true`). -/
def setPending (k : String) (p : List String) : List String :=
  if k ∈ p then p else k :: p

/-- Clear the pending flag (model of `pendingRequests.current[key] = false`). -/
def clearPending (k : String) (p : List String) : List String :=
  p.erase k

/-- `executeRequest` (part_003 lines 291–418).  `outcomes` is the network
oracle: its head is whether the next underlying `axios` call succeeds
(missing entries mean failure).  A successful attempt returns `some n`
where `n` is the index of the succeeding attempt.  The structure follows
the source: throttle check (`now - last < debounceTime && retryCount == 0`),
dedup check (`pending && retryCount == 0`), mark pending, record last
request time, issue the call, and on failure either wait `retryDelay` and
recurse with `retryCount + 1` (when `retryCount < maxRetries`) or clear the
pending flag and return `null`. -/
def executeRequest (maxRetries retryDelay debounceTime : Nat) (method url : String)
    (retryCount : Nat) (outcomes : List Bool) (s : ExecState) : ExecResult :=
  let key := requestKey method url
  let last := getAssoc key s.lastTimes
  if s.now - last < debounceTime ∧ retryCount = 0 then
    ⟨none, s, []⟩
  else if key ∈ s.pending ∧ retryCount = 0 then
    ⟨none, s, []⟩
  else
    let s1 : ExecState :=
      { s with pending := setPending key s.pending,
               lastTimes := setAssoc key s.now s.lastTimes }
    let ok := outcomes.headD false
    if ok then
      ⟨some retryCount, { s1 with pending := clearPending key s1.pending }, [s.now]⟩
    else if h : retryCount < maxRetries then
      let s2 : ExecState := { s1 with now := s1.now + retryDelay }
      let r := executeRequest maxRetries retryDelay debounceTime method url
        (retryCount + 1) outcomes.tail s2
      ⟨r.response, r.state, s.now :: r.attempts⟩
    else
      ⟨none, { s1 with pending := clearPending key s1.pending }, [s.now]⟩
termination_by maxRetries - retryCount
decreasing_by omega

/-! ## Streaming download manager (`useDownloadProgress`, part_003 lines 27–210) -/

/-- The download abort deadline: `setTimeout(() => controller.abort(), 180000)`
(part_003 line 78). -/
def ABORT_TIMEOUT_MS : Nat := 180000

/-- Timing-level input to one `downloadFileWithProgress` call: when the
`fetch` promise resolves with the response headers, whether `response.ok`,
and the (arrival time, byte size) of each chunk the body reader would
deliver. -/
structure DownloadTiming where
  headersAt : Nat
  httpOk : Bool
  chunks : List (Nat × Nat)
deriving DecidableEq, Repr

/-- Timing-level outcome: whether the abort timer fired (timeout error),
which chunks the read loop consumed, total bytes received, and whether the
call returned `true`. -/
structure DownloadRun where
  timedOut : Bool
  readChunks : List (Nat × Nat)
  receivedBytes : Nat
  succeeded : Bool
deriving DecidableEq, Repr

/-- Timing model of `downloadFileWithProgress` (part_003 lines 77–87 and
141–156).  The abort timer is armed before the `fetch` and
`clearTimeout(timeoutId)` runs immediately after `await fetch` resolves
(line 87), before the body read loop starts.  So: if the response has not
arrived when the 180000 ms deadline elapses, the controller aborts and the
call fails with a timeout error, no chunk ever read; otherwise the timer is
cleared and the `while (true)` reader loop consumes every chunk whenever it
arrives — no deadline applies to the body reads. -/
def runDownload (inp : DownloadTiming) : DownloadRun :=
  if ABORT_TIMEOUT_MS ≤ inp.headersAt then
    ⟨true, [], 0, false⟩
  else if !inp.httpOk then
    ⟨false, [], 0, false⟩
  else
    ⟨false, inp.chunks, (inp.chunks.map (fun c => c.2)).sum, true⟩

/-- `Math.round((receivedLength / total) * 100)` (part_003 line 153), exact
over the rationals: `round(100 r / t) = ⌊(200 r + t) / (2 t)⌋` for `t > 0`. -/
def progressOf (total received : Nat) : Nat :=
  (200 * received + total) / (2 * total)

/-- The progress values pushed to `setProgress` by the read loop (part_003
lines 141–156), starting from `receivedLength = acc`: after each chunk the
received count grows by the chunk size and, only when `total > 0`, a
percentage is emitted. -/
def progressEventsFrom (total acc : Nat) : List Nat → List Nat
  | [] => []
  | c :: rest =>
    let r := acc + c
    if 0 < total then progressOf total r :: progressEventsFrom total r rest
    else progressEventsFrom total r rest

/-- Progress events of a whole download with declared `total` (0 when the
`content-length` header is absent, line 95) and body chunk sizes `sizes`. -/
def progressEvents (total : Nat) (sizes : List Nat) : List Nat :=
  progressEventsFrom total 0 sizes

/-- `receivedLength` after the loop: the sum of all chunk sizes. -/
def receivedTotal (sizes : List Nat) : Nat := sizes.sum

/-- The assembly step (part_003 lines 158–164): all chunks are concatenated
into one buffer of size `receivedLength`. -/
def assembleChunks (chunks : List (List Nat)) : List Nat := chunks.flatten

/-! ### Filename resolution from the content-disposition header
(part_003 lines 106–129) -/

/-- JS `\s` on the ASCII range, for the character class `[^;"\s]`. -/
def isJsSpace (c : Char) : Bool :=
  c = ' ' || c = '\t' || c = '\n' || c = '\r' || c = '\x0b' || c = '\x0c'

/-- Case-insensitive match of an (already lowercased) `pat` at the head of
`cs`, as the `/i` regex flag does for ASCII letters. -/
def matchCI : List Char → List Char → Bool
  | [], _ => true
  | _ :: _, [] => false
  | p :: ps, c :: cs => p = c.toLower && matchCI ps cs

/-- The literal part of `/filename\*=UTF-8''([^;"\s]+)/i`, lowercased. -/
def patExt : List Char := "filename*=utf-8''".data

/-- The literal part of `/filename="([^"]+)"/i`, lowercased. -/
def patPlain : List Char := "filename=\"".data

/-- First match of `/filename\*=UTF-8''([^;"\s]+)/i` (part_003 line 111):
scan left to right; at a position where the literal matches, the capture is
the maximal run of characters outside `;`, `"`, whitespace and must be
nonempty, else the scan continues at the next position. -/
def findExtCapture : List Char → Option (List Char)
  | [] => none
  | c :: cs =>
    if matchCI patExt (c :: cs) then
      let cap := ((c :: cs).drop patExt.length).takeWhile
        (fun x => !(x = ';' || x = '"' || isJsSpace x))
      if cap = [] then findExtCapture cs else some cap
    else findExtCapture cs

/-- First match of `/filename="([^"]+)"/i` (part_003 line 118): the capture
runs to the next `"`, must be nonempty, and the closing quote must exist. -/
def findPlainCapture : List Char → Option (List Char)
  | [] => none
  | c :: cs =>
    if matchCI patPlain (c :: cs) then
      let rest := (c :: cs).drop patPlain.length
      let cap := rest.takeWhile (fun x => x ≠ '"')
      if cap ≠ [] ∧ cap.length ≠ rest.length then some cap
      else findPlainCapture cs
    else findPlainCapture cs

/-- One hexadecimal digit, as `decodeURIComponent` accepts after `%`
(digits, upper- and lowercase letters, by code point). -/
def hexDigit (c : Char) : Option Nat :=
  let n := c.toNat
  if 48 ≤ n ∧ n ≤ 57 then some (n - 48)
  else if 65 ≤ n ∧ n ≤ 70 then some (n - 55)
  else if 97 ≤ n ∧ n ≤ 102 then some (n - 87)
  else none

/-- UTF-8 encoding of one code point (for the pass-through characters of
`decodeURIComponent`). -/
def utf8Enc (n : Nat) : List Nat :=
  if n < 0x80 then [n]
  else if n < 0x800 then [0xC0 + n / 64, 0x80 + n % 64]
  else if n < 0x10000 then [0xE0 + n / 4096, 0x80 + n / 64 % 64, 0x80 + n % 64]
  else [0xF0 + n / 262144, 0x80 + n / 4096 % 64, 0x80 + n / 64 % 64, 0x80 + n % 64]

/-- Percent-decoding phase of `decodeURIComponent`: each `%HH` becomes the
byte `HH` (malformed escapes make the whole call throw, modelled `none`);
other characters pass through as their UTF-8 bytes. -/
def percentDecode : List Char → Option (List Nat)
  | [] => some []
  | '%' :: h1 :: h2 :: rest => do
    let a ← hexDigit h1
    let b ← hexDigit h2
    let bs ← percentDecode rest
    pure ((16 * a + b) :: bs)
  | '%' :: _ => none
  | c :: rest => do
    let bs ← percentDecode rest
    pure (utf8Enc c.toNat ++ bs)

/-- Is `b` a UTF-8 continuation byte. -/
def isCont (b : Nat) : Bool := 0x80 ≤ b && b < 0xC0

/-- Strict UTF-8 decoding of a byte sequence (the reconstruction phase of
`decodeURIComponent`; invalid sequences make it throw, modelled `none`). -/
def utf8Dec : List Nat → Option (List Char)
  | [] => some []
  | b :: rest =>
    if b < 0x80 then do
      let cs ← utf8Dec rest
      pure (Char.ofNat b :: cs)
    else if 0xC2 ≤ b ∧ b ≤ 0xDF then
      match rest with
      | b2 :: rest2 =>
        if isCont b2 then do
          let cs ← utf8Dec rest2
          pure (Char.ofNat ((b - 0xC0) * 64 + (b2 - 0x80)) :: cs)
        else none
      | [] => none
    else if 0xE0 ≤ b ∧ b ≤ 0xEF then
      match rest with
      | b2 :: b3 :: rest2 =>
        let cp := (b - 0xE0) * 4096 + (b2 - 0x80) * 64 + (b3 - 0x80)
        if isCont b2 && isCont b3 && 0x800 ≤ cp && !(0xD800 ≤ cp && cp ≤ 0xDFFF) then do
          let cs ← utf8Dec rest2
          pure (Char.ofNat cp :: cs)
        else none
      | _ => none
    else if 0xF0 ≤ b ∧ b ≤ 0xF4 then
      match rest with
      | b2 :: b3 :: b4 :: rest2 =>
        let cp := (b - 0xF0) * 262144 + (b2 - 0x80) * 4096 + (b3 - 0x80) * 64 + (b4 - 0x80)
        if isCont b2 && isCont b3 && isCont b4 && 0x10000 ≤ cp && cp < 0x110000 then do
          let cs ← utf8Dec rest2
          pure (Char.ofNat cp :: cs)
        else none
      | _ => none
    else none

/-- `decodeURIComponent` (part_003 line 113): percent-decode, then rebuild
the string from the UTF-8 bytes; `none` models a thrown `URIError`. -/
def decodeURIComponentM (cs : List Char) : Option (List Char) := do
  let bs ← percentDecode cs
  utf8Dec bs

/-- Filename resolution of part_003 lines 107–129.  Start from the fallback;
with a header, try the `filename*=UTF-8''` capture first and percent-decode
it (a throwing `decodeURIComponent` is caught by the surrounding
`try`/`catch`, leaving the fallback — the plain match is NOT retried);
without an extended match, try the quoted `filename="..."` capture; else
keep the fallback. -/
def resolveFilename (contentDisposition : Option String) (fallback : String) : String :=
  match contentDisposition with
  | none => fallback
  | some h =>
    match findExtCapture h.data with
    | some cap =>
      match decodeURIComponentM cap with
      | some cs => ⟨cs⟩
      | none => fallback
    | none =>
      match findPlainCapture h.data with
      | some cap => ⟨cap⟩
      | none => fallback

/-! ## Debounced variant (`debounce`, part_003 lines 423–446) -/

/-- One pending debounce timer (`debounceTimers.current[debounceKey]`): the
key it is filed under, the id of the promise whose `resolve` its closure
captured, and its due time. -/
structure DebTimer where
  key : String
  promiseId : Nat
  due : Nat
deriving DecidableEq, Repr

/-- State of the debounce layer plus observers: promises are numbered in
creation order; `resolved` records which promises were resolved and with
what `executeRequest` outcome; `executions` counts underlying executions. -/
structure DebState where
  timers : List DebTimer
  nextPromise : Nat
  executions : Nat
  resolved : List (Nat × Option Nat)
  now : Nat
deriving DecidableEq, Repr

def initDeb : DebState := ⟨[], 0, 0, [], 0⟩

/-- One call to `debounce` at virtual time `t` (part_003 lines 423–446):
`clearTimeout` any existing timer for the key — which orphans the promise
whose `resolve` that timer's closure held — then return a fresh promise and
schedule a timer `debounceTime` later that executes the request and
resolves only that fresh promise. -/
def debCall (debounceTime : Nat) (key : String) (t : Nat) (s : DebState) : DebState :=
  { s with
    timers := ({ key := key, promiseId := s.nextPromise, due := t + debounceTime } : DebTimer) :: s.timers.filter (fun x => x.key != key),
    nextPromise := s.nextPromise + 1,
    now := t }

/-- The pending timer for `key` fires: the debounced `executeRequest` runs
once and its outcome `v` resolves exactly the promise captured by this
timer (part_003 lines 439–442). -/
def debFire (key : String) (v : Option Nat) (s : DebState) : DebState :=
  match s.timers.find? (fun x => x.key == key) with
  | none => s
  | some tm =>
    { s with
      timers := s.timers.filter (fun x => x.key != key),
      executions := s.executions + 1,
      resolved := (tm.promiseId, v) :: s.resolved,
      now := max s.now tm.due }

/-- A sequence of `debounce` calls to one key at the given times. -/
def debCalls (debounceTime : Nat) (key : String) : List Nat → DebState → DebState
  | [], s => s
  | t :: rest, s => debCalls debounceTime key rest (debCall debounceTime key t s)

/-- The call times form a rapid burst: nondecreasing, and each call lands
before the previous call's timer would fire. -/
def rapid (debounceTime : Nat) : List Nat → Bool
  | [] => true
  | [_] => true
  | a :: b :: rest =>
    (a ≤ b : Bool) && (b < a + debounceTime : Bool) && rapid debounceTime (b :: rest)

/-- Last element of a list of times, 0 for the empty list. -/
def lastD : List Nat → Nat
  | [] => 0
  | [t] => t
  | _ :: t :: rest => lastD (t :: rest)

/-! ## Task orchestrator (`useIsWorking`, src/unnamed/part_002) -/

/-- The three kinds of timer the hook creates: the 1 s grace `setTimeout`
(line 62), the 5 min safety `setTimeout` (line 100), and the repeating 2 s
`setInterval` (line 97). -/
inductive TimerKind
  | grace
  | safety
  | interval
deriving DecidableEq, Repr

/-- A live browser timer: its handle, its (next) due time, and its kind. -/
structure OrchTimer where
  id : Nat
  due : Nat
  kind : TimerKind
deriving DecidableEq, Repr

/-- State of one `useIsWorking` instance: the React state cells, the three
refs (`pollingIntervalRef`, `completionCallbackFiredRef`, `isPollingRef`),
the set of live timers, a fresh-handle counter, virtual time, whether a
`startTask` fetch is in flight, whether an `onComplete` callback was
supplied, and observers: `completions` counts `onComplete` invocations,
`firesSinceReset` counts them since the guard flag was last reset, and
`loggedErrors` counts caught callback exceptions. -/
structure OrchState where
  isWorking : Bool
  isLoading : Bool
  taskMessage : Option String
  errorSet : Bool
  isPolling : Bool
  callbackFired : Bool
  pollingIntervalId : Option Nat
  timers : List OrchTimer
  nextId : Nat
  now : Nat
  startPending : Bool
  hasOnComplete : Bool
  completions : Nat
  firesSinceReset : Nat
  loggedErrors : Nat
deriving DecidableEq, Repr

def initOrch : OrchState :=
  { isWorking := false, isLoading := false, taskMessage := none, errorSet := false,
    isPolling := false, callbackFired := false, pollingIntervalId := none,
    timers := [], nextId := 0, now := 0, startPending := false,
    hasOnComplete := true, completions := 0, firesSinceReset := 0, loggedErrors := 0 }

/-- `cleanupPolling` (part_002 lines 25–32), also exposed as `stopPolling`
(line 194): if `pollingIntervalRef.current` is set, `clearInterval` it and
null the ref; then clear `isPollingRef`.  Nothing else is cancelled. -/
def cleanupPolling (s : OrchState) : OrchState :=
  let timers' := match s.pollingIntervalId with
    | some i => s.timers.filter (fun t => t.id != i)
    | none => s.timers
  { s with timers := timers', pollingIntervalId := none, isPolling := false }

/-- `executeCompletionCallback` (part_002 lines 35–45): when the guard flag
is clear and an `onComplete` was supplied, set the flag, then invoke the
callback inside `try`/`catch`; `cbThrows` says whether the callback throws,
in which case the exception is caught and logged. -/
def executeCompletionCallback (cbThrows : Bool) (s : OrchState) : OrchState :=
  if !s.callbackFired && s.hasOnComplete then
    let s1 := { s with callbackFired := true, completions := s.completions + 1,
                       firesSinceReset := s.firesSinceReset + 1 }
    if cbThrows then { s1 with loggedErrors := s1.loggedErrors + 1 } else s1
  else s

/-- Processing of one `checkTaskStatus` response (part_002 lines 64–91),
driven by the oracle: a non-2xx or network error is caught and swallowed
(the loop continues); `is_working = false` sets the state cells, cleans up
polling and fires the completion callback; `is_working = true` changes
nothing. -/
def checkStatusResult (httpOk stillWorking cbThrows : Bool) (s : OrchState) : OrchState :=
  if !httpOk then s
  else if stillWorking then s
  else
    executeCompletionCallback cbThrows
      (cleanupPolling { s with isWorking := false, isLoading := false })

/-- `startPolling` (part_002 lines 48–114): guarded by `isPollingRef`; when
free it sets the state cells and refs and schedules the 1 s grace
`setTimeout`.  Everything inside that timeout (the immediate check, the
2 s interval, the 5 min safety timeout) happens when the grace timer
fires. -/
def startPollingFn (s : OrchState) : OrchState :=
  if s.isPolling then s
  else
    let s1 := { s with isWorking := true, isLoading := true, isPolling := true,
                       callbackFired := false, firesSinceReset := 0 }
    { s1 with timers := s1.timers ++ [({ id := s1.nextId, due := s1.now + 1000, kind := TimerKind.grace } : OrchTimer)],
              nextId := s1.nextId + 1 }

/-- The synchronous part of `startTask` (part_002 lines 117–141):
`cleanupPolling`, set the message/loading cells, clear the error and the
single-fire guard, then issue the POST (its resolution is a separate
event). -/
def startTaskCall (message : String) (s : OrchState) : OrchState :=
  let s1 := cleanupPolling s
  { s1 with taskMessage := some message, isLoading := true, errorSet := false,
            callbackFired := false, firesSinceReset := 0, startPending := true }

/-- Resolution of the `startTask` fetch (part_002 lines 143–165): on
`response.ok`, `startPolling()` begins; otherwise the catch block clears the
loading/working cells and records the error. -/
def startTaskResponse (ok : Bool) (s : OrchState) : OrchState :=
  if !s.startPending then s
  else
    let s1 := { s with startPending := false }
    if ok then startPollingFn s1
    else { s1 with isLoading := false, isWorking := false, errorSet := true }

/-- `resetState` (part_002 lines 171–178). -/
def resetStateFn (s : OrchState) : OrchState :=
  let s1 := cleanupPolling s
  { s1 with isWorking := false, isLoading := false, errorSet := false,
            callbackFired := false, firesSinceReset := 0 }

/-- Firing of timer `tid` (the JS event loop runs its callback).  A grace
timer removes itself, issues the immediate `checkTaskStatus`, installs the
2 s interval — overwriting `pollingIntervalRef` — and the 5 min safety
timeout, and then the immediate check's response is processed (the fetch
resolves after the synchronous code).  An interval timer re-arms itself and
processes one check with the oracle.  The safety timer removes itself and,
if `isPollingRef` is still set, forces completion (lines 100–112). -/
def fireTimer (tid : Nat) (httpOk stillWorking cbThrows : Bool) (s : OrchState) : OrchState :=
  match s.timers.find? (fun t => t.id == tid) with
  | none => s
  | some t =>
    let s0 := { s with now := max s.now t.due }
    match t.kind with
    | TimerKind.grace =>
      let s1 := { s0 with timers := s0.timers.filter (fun x => x.id != tid) }
      let intervalId := s1.nextId
      let s2 := { s1 with
        timers := s1.timers ++ [({ id := intervalId, due := s1.now + 2000, kind := TimerKind.interval } : OrchTimer)],
        pollingIntervalId := some intervalId,
        nextId := s1.nextId + 1 }
      let s3 := { s2 with
        timers := s2.timers ++ [({ id := s2.nextId, due := s2.now + 300000, kind := TimerKind.safety } : OrchTimer)],
        nextId := s2.nextId + 1 }
      checkStatusResult httpOk stillWorking cbThrows s3
    | TimerKind.interval =>
      let retick := fun (x : OrchTimer) =>
        if x.id == tid then { x with due := x.due + 2000 } else x
      let s1 := { s0 with timers := s0.timers.map retick }
      checkStatusResult httpOk stillWorking cbThrows s1
    | TimerKind.safety =>
      let s1 := { s0 with timers := s0.timers.filter (fun x => x.id != tid) }
      if s1.isPolling then
        executeCompletionCallback cbThrows
          (cleanupPolling { s1 with isWorking := false, isLoading := false })
      else s1

/-- External stimuli on one hook instance: the exported operations, the
resolution of a `startTask` fetch, a timer firing (with the oracle bits for
any status check it performs and for whether `onComplete` throws), and the
passage of time. -/
inductive OrchEvent
  | startPolling
  | stopPolling
  | resetState
  | startTaskCall (message : String)
  | startTaskResponse (ok : Bool)
  | fireTimer (id : Nat) (httpOk stillWorking cbThrows : Bool)
  | advance (d : Nat)
deriving DecidableEq, Repr

def stepOrch (s : OrchState) : OrchEvent → OrchState
  | OrchEvent.startPolling => startPollingFn s
  | OrchEvent.stopPolling => cleanupPolling s
  | OrchEvent.resetState => resetStateFn s
  | OrchEvent.startTaskCall m => startTaskCall m s
  | OrchEvent.startTaskResponse ok => startTaskResponse ok s
  | OrchEvent.fireTimer i a b c => fireTimer i a b c s
  | OrchEvent.advance d => { s with now := s.now + d }

def runOrch (evs : List OrchEvent) : OrchState :=
  evs.foldl stepOrch initOrch

/-- Number of live repeating `setInterval` polling loops. -/
def countIntervals (s : OrchState) : Nat :=
  (s.timers.filter (fun t => t.kind == TimerKind.interval)).length

/-! ## Theorems: resilient request executor -/

lemma executeRequest_attempts_le (mR rD dT : Nat) (m u : String) :
    ∀ n rc outcomes s, mR - rc ≤ n →
      (executeRequest mR rD dT m u rc outcomes s).attempts.length ≤ n + 1 := by
  intro n
  induction n with
  | zero =>
    intro rc outcomes s h
    unfold executeRequest
    dsimp only
    split
    · simp
    split
    · simp
    split
    · simp
    split
    · omega
    · simp
  | succ n ih =>
    intro rc outcomes s h
    unfold executeRequest
    dsimp only
    split
    · simp
    split
    · simp
    split
    · simp
    split
    · simp only [List.length_cons]
      exact Nat.succ_le_succ (ih _ _ _ (by omega))
    · simp

lemma executeRequest_retry_attempts (mR rD dT : Nat) (m u : String) (rc : Nat)
    (outcomes : List Bool) (s : ExecState) (h : rc ≠ 0) :
    1 ≤ (executeRequest mR rD dT m u rc outcomes s).attempts.length := by
  unfold executeRequest
  dsimp only
  split
  · omega
  split
  · omega
  split
  · simp
  split
  · simp
  · simp

/-- C4: with `maxRetries = 3`, `retryDelay = 1000`, a call whose underlying
requests fail twice then succeed returns the successful response (`some 2`:
success at the third attempt), performs exactly 3 network calls issued at
times 10000, 11000, 12000 — the fixed, non-exponential 1000 ms gap between
consecutive attempts; in general a fresh call performs at most
`maxRetries + 1` attempts, and a retry (`retryCount ≠ 0`) always reaches the
network call, bypassing the throttle and dedup guards whatever the shared
state holds. -/
theorem C4_retry_policy :
    (executeRequest 3 1000 1000 "get" "/x" 0 [false, false, true] ⟨[], [], 10000⟩ =
      ⟨some 2, ⟨[("get:/x", 12000)], [], 12000⟩, [10000, 11000, 12000]⟩) ∧
    (∀ (mR rD dT : Nat) (m u : String) (outcomes : List Bool) (s : ExecState),
      (executeRequest mR rD dT m u 0 outcomes s).attempts.length ≤ mR + 1) ∧
    (∀ (mR rD dT : Nat) (m u : String) (rc : Nat) (outcomes : List Bool) (s : ExecState),
      rc ≠ 0 → 1 ≤ (executeRequest mR rD dT m u rc outcomes s).attempts.length) := by
  refine ⟨?_, ?_, ?_⟩
  · simp [executeRequest, requestKey, cleanUrlOf, isApiUrl, getDebounceKey, getAssoc,
      setAssoc, setPending, clearPending]
  · intro mR rD dT m u outcomes s
    exact executeRequest_attempts_le mR rD dT m u mR 0 outcomes s (by omega)
  · intro mR rD dT m u rc outcomes s h
    exact executeRequest_retry_attempts mR rD dT m u rc outcomes s h

/-- Witness for C4: a retry-level call (`retryCount = 1`) issues a network
call even when the key is flagged pending and was requested within the
throttle window. -/
theorem C4_retry_policy_witness :
    1 ≤ (executeRequest 3 1000 1000 "get" "/x" 1 []
      ⟨[("get:/x", 9999)], ["get:/x"], 10000⟩).attempts.length :=
  C4_retry_policy.2.2 3 1000 1000 "get" "/x" 1 [] ⟨[("get:/x", 9999)], ["get:/x"], 10000⟩
    (by decide)

/-- C5 counterexample: the claim says the key computed for `/api/x` equals
the key computed for `x`; in the code `"/api/x".substring(4)` is `"/x"`, so
the keys are `"get:/x"` and `"get:x"`, which differ. -/
theorem C5_key_counterexample :
    requestKey "get" "/api/x" ≠ requestKey "get" "x" := by decide

/-- C5 amended: stripping the leading `/api` prefix keeps the slash, so for
every method the key computed for `/api/x` equals the key computed for
`/x` (not for `x`). -/
theorem C5_amended_key_collapse :
    ∀ m, requestKey m "/api/x" = requestKey m "/x" := by
  intro m
  have h1 : cleanUrlOf "/api/x" = "/x" := by decide
  have h2 : cleanUrlOf "/x" = "/x" := rfl
  rw [requestKey, requestKey, getDebounceKey, getDebounceKey, h1, h2]

/-! ## Theorems: streaming download manager -/

/-- C3 counterexample: the headers arrive at 1000 ms, so the abort timer is
cleared; a body chunk arriving at 1 000 000 ms — far past the 180 000 ms
deadline — is still read, and no timeout is reported, refuting "the deadline
covers the whole transfer, including the incremental body chunk reads". -/
theorem C3_deadline_counterexample :
    (runDownload ⟨1000, true, [(1000000, 5)]⟩).timedOut = false ∧
    (1000000, 5) ∈ (runDownload ⟨1000, true, [(1000000, 5)]⟩).readChunks ∧
    (runDownload ⟨1000, true, [(1000000, 5)]⟩).succeeded = true := by decide

/-- C3 amended: the 180 000 ms abort deadline bounds only the initial fetch,
up to arrival of the response headers: if the response has not resolved when
the deadline elapses the transfer is aborted with a timeout error and no
chunk is ever read; once the response arrives before the deadline the timer
is cleared, so the body read loop is unbounded and reads every chunk
regardless of arrival time. -/
theorem C3_amended_abort_deadline :
    ∀ inp : DownloadTiming,
      (ABORT_TIMEOUT_MS ≤ inp.headersAt →
        (runDownload inp).timedOut = true ∧ (runDownload inp).readChunks = []) ∧
      (inp.headersAt < ABORT_TIMEOUT_MS →
        (runDownload inp).timedOut = false ∧
        (inp.httpOk = true → (runDownload inp).readChunks = inp.chunks)) := by
  intro inp
  constructor
  · intro h
    rw [runDownload, if_pos h]
    exact ⟨rfl, rfl⟩
  · intro h
    rw [runDownload, if_neg (by omega)]
    cases hok : inp.httpOk <;> simp [hok]

/-- Witness for C3 amended: both sides at concrete inputs — headers that
never arrive in time are aborted with no reads; a fast response with a late
chunk is read in full. -/
theorem C3_amended_abort_deadline_witness :
    ((runDownload ⟨200000, true, [(1000, 5)]⟩).timedOut = true ∧
      (runDownload ⟨200000, true, [(1000, 5)]⟩).readChunks = []) ∧
    ((runDownload ⟨1000, true, [(1000000, 5)]⟩).timedOut = false ∧
      (runDownload ⟨1000, true, [(1000000, 5)]⟩).readChunks = [(1000000, 5)]) :=
  ⟨(C3_amended_abort_deadline ⟨200000, true, [(1000, 5)]⟩).1 (by decide),
   ⟨((C3_amended_abort_deadline ⟨1000, true, [(1000000, 5)]⟩).2 (by decide)).1,
    ((C3_amended_abort_deadline ⟨1000, true, [(1000000, 5)]⟩).2 (by decide)).2 rfl⟩⟩

lemma progressOf_le_100 (total r : Nat) (h0 : 0 < total) (hr : r ≤ total) :
    progressOf total r ≤ 100 := by
  unfold progressOf
  have h1 : 200 * r + total ≤ 201 * total := by omega
  have h2 : (201 * total) / (2 * total) < 101 :=
    (Nat.div_lt_iff_lt_mul (by omega : 0 < 2 * total)).mpr (by omega)
  have h3 := Nat.div_le_div_right (c := 2 * total) h1
  omega

lemma progressEventsFrom_le_100 (total : Nat) (h0 : 0 < total) :
    ∀ (sizes : List Nat) (acc : Nat), acc + sizes.sum ≤ total →
      ∀ p ∈ progressEventsFrom total acc sizes, p ≤ 100 := by
  intro sizes
  induction sizes with
  | nil => intro acc h p hp; simp [progressEventsFrom] at hp
  | cons c rest ih =>
    intro acc h p hp
    simp only [List.sum_cons] at h
    rw [progressEventsFrom, if_pos h0] at hp
    rcases List.mem_cons.mp hp with hp | hp
    · subst hp
      exact progressOf_le_100 total (acc + c) h0 (by omega)
    · exact ih (acc + c) (by omega) p hp

lemma progressEventsFrom_zero :
    ∀ (sizes : List Nat) (acc : Nat), progressEventsFrom 0 acc sizes = [] := by
  intro sizes
  induction sizes with
  | nil => intro acc; rfl
  | cons c rest ih => intro acc; rw [progressEventsFrom, if_neg (by omega)]; exact ih _

/-- C7 counterexample: with `content-length: 1000` and a single 1500-byte
chunk, `receivedLength` reaches 1500 > 1000 and the emitted progress value
is 150 > 100 — nothing in the code caps received bytes at the declared
total, refuting the claim for arbitrary response bodies. -/
theorem C7_progress_counterexample :
    receivedTotal [1500] = 1500 ∧ 1000 < receivedTotal [1500] ∧
    progressEvents 1000 [1500] = [150] ∧ ¬(150 ≤ 100) := by decide

/-- C7 amended: provided the body delivers no more than the declared
nonzero total (the well-formed-response assumption the claim leaves
implicit), the running received count never exceeds the total and every
emitted progress value is at most 100; with no `content-length`
(`total = 0`) no percentage is ever emitted, and the assembled payload size
always equals the total number of bytes received. -/
theorem C7_amended_progress_bounds :
    (∀ (total : Nat) (sizes : List Nat), 0 < total → sizes.sum ≤ total →
      (∀ k, (sizes.take k).sum ≤ total) ∧
      (∀ p ∈ progressEvents total sizes, p ≤ 100)) ∧
    (∀ sizes : List Nat, progressEvents 0 sizes = []) ∧
    (∀ chunks : List (List Nat),
      (assembleChunks chunks).length = receivedTotal (chunks.map List.length)) := by
  refine ⟨?_, ?_, ?_⟩
  · intro total sizes h0 hsum
    constructor
    · intro k
      have := List.sum_take_add_sum_drop sizes k
      omega
    · exact progressEventsFrom_le_100 total h0 sizes 0 (by omega)
  · intro sizes
    exact progressEventsFrom_zero sizes 0
  · intro chunks
    simp [assembleChunks, receivedTotal]

/-- Witness for C7 amended: the spec's own example — `content-length: 1000`,
four 250-byte chunks — stays within bounds, and a no-length download emits
nothing while assembling all received bytes. -/
theorem C7_amended_progress_bounds_witness :
    ((([250, 250, 250, 250] : List Nat).take 2).sum ≤ 1000 ∧
      ∀ p ∈ progressEvents 1000 [250, 250, 250, 250], p ≤ 100) ∧
    progressEvents 0 [250, 250] = [] ∧
    (assembleChunks [[1, 2], [3]]).length = receivedTotal ([[1, 2], [3]].map List.length) :=
  ⟨⟨(C7_amended_progress_bounds.1 1000 [250, 250, 250, 250] (by decide) (by decide)).1 2,
    (C7_amended_progress_bounds.1 1000 [250, 250, 250, 250] (by decide) (by decide)).2⟩,
   C7_amended_progress_bounds.2.1 [250, 250],
   C7_amended_progress_bounds.2.2 [[1, 2], [3]]⟩

/-- C8: filename resolution priority on the content-disposition header.
(1) the extended `filename*=UTF-8''…` parameter percent-decoded — on the
spec's example header it yields `résumé.pptx` whatever the fallback, and it
wins even when a plain quoted filename is also present; (2) failing an
extended match, the quoted plain `filename="…"` parameter; (3) failing
both, or with no header at all, the caller's fallback verbatim; a header
whose extended filename fails to percent-decode (the `decodeURIComponent`
throw is caught) silently falls back without aborting. -/
theorem C8_filename_resolution :
    (∀ fb, resolveFilename (some "attachment; filename*=UTF-8''r%C3%A9sum%C3%A9.pptx") fb
      = "résumé.pptx") ∧
    (∀ fb, resolveFilename
      (some "attachment; filename=\"plain.txt\"; filename*=UTF-8''f%C3%A4ncy.txt") fb
      = "fäncy.txt") ∧
    (∀ fb, resolveFilename (some "attachment; filename=\"report.pdf\"") fb = "report.pdf") ∧
    (∀ fb, resolveFilename none fb = fb) ∧
    (∀ fb, resolveFilename (some "attachment; filename*=UTF-8''bad%GGname") fb = fb) := by
  refine ⟨?_, ?_, ?_, fun fb => rfl, ?_⟩
  · have h1 : findExtCapture ("attachment; filename*=UTF-8''r%C3%A9sum%C3%A9.pptx".data)
        = some ("r%C3%A9sum%C3%A9.pptx".data) := by decide
    have h2 : decodeURIComponentM ("r%C3%A9sum%C3%A9.pptx".data)
        = some ("résumé.pptx".data) := by decide
    intro fb
    simp only [resolveFilename, h1, h2]
  · have h1 : findExtCapture
        ("attachment; filename=\"plain.txt\"; filename*=UTF-8''f%C3%A4ncy.txt".data)
        = some ("f%C3%A4ncy.txt".data) := by decide
    have h2 : decodeURIComponentM ("f%C3%A4ncy.txt".data) = some ("fäncy.txt".data) := by
      decide
    intro fb
    simp only [resolveFilename, h1, h2]
  · have h1 : findExtCapture ("attachment; filename=\"report.pdf\"".data) = none := by decide
    have h2 : findPlainCapture ("attachment; filename=\"report.pdf\"".data)
        = some ("report.pdf".data) := by decide
    intro fb
    simp only [resolveFilename, h1, h2]
  · have h1 : findExtCapture ("attachment; filename*=UTF-8''bad%GGname".data)
        = some ("bad%GGname".data) := by decide
    have h2 : decodeURIComponentM ("bad%GGname".data) = none := by decide
    intro fb
    simp only [resolveFilename, h1, h2]

/-! ## Theorems: debounced variant -/

lemma debCalls_run (W : Nat) (key : String) :
    ∀ (ts : List Nat) (s : DebState), ts ≠ [] → (∀ tm ∈ s.timers, tm.key = key) →
      debCalls W key ts s =
        { timers := [{ key := key, promiseId := s.nextPromise + ts.length - 1,
                       due := lastD ts + W }],
          nextPromise := s.nextPromise + ts.length,
          executions := s.executions,
          resolved := s.resolved,
          now := lastD ts } := by
  intro ts
  induction ts with
  | nil => intro s h hk; exact absurd rfl h
  | cons t rest ih =>
    intro s _ hk
    rw [debCalls]
    have hfilter : s.timers.filter (fun x => x.key != key) = [] := by
      rw [List.filter_eq_nil_iff]
      intro a ha
      simp [hk a ha]
    cases rest with
    | nil =>
      rw [debCalls]
      unfold debCall
      rw [hfilter]
      simp [lastD]
    | cons t2 rest2 =>
      rw [ih (debCall W key t s) (by simp)
        (by intro tm htm; unfold debCall at htm; rw [hfilter] at htm; simp at htm; simp [htm])]
      unfold debCall
      simp only [DebState.mk.injEq, List.cons.injEq, DebTimer.mk.injEq, List.length_cons]
      and_intros <;> first | trivial | omega

/-- C6 counterexample: two `debounce` calls to the same key 500 ms apart
(window 1000 ms), then the surviving timer fires.  Exactly one execution
happens and exactly one promise — the second caller's, id 1 — resolves;
promise 0's `resolve` sat in the cleared timer's closure, no timer remains,
so the first caller's promise is never settled.  This refutes "every
caller's returned promise is resolved with that single execution's
outcome". -/
theorem C6_orphaned_promise_counterexample :
    (debFire "get:/x" (some 0)
      (debCall 1000 "get:/x" 500 (debCall 1000 "get:/x" 0 initDeb))).executions = 1 ∧
    (debFire "get:/x" (some 0)
      (debCall 1000 "get:/x" 500 (debCall 1000 "get:/x" 0 initDeb))).resolved
      = [(1, some 0)] ∧
    (debFire "get:/x" (some 0)
      (debCall 1000 "get:/x" 500 (debCall 1000 "get:/x" 0 initDeb))).timers = [] := by
  decide

/-- C6 amended: for every rapid burst of debounced calls to one key inside
the debounce window, exactly one underlying execution occurs
(last-call-wins timer reset) and the LAST caller's promise — and only it —
is resolved with that execution's outcome; the earlier callers' promises
are orphaned by `clearTimeout` and never settle. -/
theorem C6_amended_debounce :
    ∀ (W : Nat) (key : String) (v : Option Nat) (ts : List Nat),
      ts ≠ [] → rapid W ts = true →
      (debFire key v (debCalls W key ts initDeb)).executions = 1 ∧
      (debFire key v (debCalls W key ts initDeb)).resolved = [(ts.length - 1, v)] ∧
      (debFire key v (debCalls W key ts initDeb)).timers = [] := by
  intro W key v ts hne hr
  rw [debCalls_run W key ts initDeb hne (by simp [initDeb])]
  unfold debFire
  rw [List.find?_cons_of_pos _ (by simp)]
  simp [initDeb]

/-- Witness for C6 amended: the two-call burst at times 0 and 500 with
window 1000 — one execution, the last promise (id 1) resolved with the
outcome. -/
theorem C6_amended_debounce_witness :
    (debFire "get:/x" (some 7) (debCalls 1000 "get:/x" [0, 500] initDeb)).executions = 1 ∧
    (debFire "get:/x" (some 7) (debCalls 1000 "get:/x" [0, 500] initDeb)).resolved
      = [(1, some 7)] ∧
    (debFire "get:/x" (some 7) (debCalls 1000 "get:/x" [0, 500] initDeb)).timers = [] :=
  C6_amended_debounce 1000 "get:/x" (some 7) [0, 500] (by decide) (by decide)

/-! ## Theorems: task orchestrator -/

/-- The single-fire guard invariant: the number of `onComplete` invocations
since `completionCallbackFiredRef` was last reset is at most one, and is
zero while the flag is still clear. -/
def GuardInv (s : OrchState) : Prop :=
  s.firesSinceReset ≤ 1 ∧ (s.callbackFired = false → s.firesSinceReset = 0)

lemma guardInv_exec (b : Bool) (s : OrchState) (h : GuardInv s) :
    GuardInv (executeCompletionCallback b s) := by
  unfold executeCompletionCallback
  split
  · rename_i hc
    simp only [Bool.and_eq_true, Bool.not_eq_true'] at hc
    have h0 := h.2 hc.1
    split
    · exact ⟨by simp [h0], by simp⟩
    · exact ⟨by simp [h0], by simp⟩
  · exact h

lemma guardInv_cleanup (s : OrchState) (h : GuardInv s) : GuardInv (cleanupPolling s) := h

lemma guardInv_check (a b c : Bool) (s : OrchState) (h : GuardInv s) :
    GuardInv (checkStatusResult a b c s) := by
  unfold checkStatusResult
  split
  · exact h
  split
  · exact h
  · exact guardInv_exec _ _ (guardInv_cleanup _ h)

lemma guardInv_startPolling (s : OrchState) (h : GuardInv s) :
    GuardInv (startPollingFn s) := by
  unfold startPollingFn
  split
  · exact h
  · exact ⟨by simp, by simp⟩

lemma guardInv_startTaskCall (m : String) (s : OrchState) (_h : GuardInv s) :
    GuardInv (startTaskCall m s) := by
  unfold startTaskCall
  exact ⟨by simp, by simp⟩

lemma guardInv_startTaskResponse (ok : Bool) (s : OrchState) (h : GuardInv s) :
    GuardInv (startTaskResponse ok s) := by
  unfold startTaskResponse
  split
  · exact h
  split
  · exact guardInv_startPolling _ h
  · exact h

lemma guardInv_resetState (s : OrchState) (_h : GuardInv s) :
    GuardInv (resetStateFn s) := by
  unfold resetStateFn
  exact ⟨by simp, by simp⟩

lemma guardInv_fireTimer (i : Nat) (a b c : Bool) (s : OrchState) (h : GuardInv s) :
    GuardInv (fireTimer i a b c s) := by
  unfold fireTimer
  split
  · exact h
  · split
    · exact guardInv_check _ _ _ _ h
    · exact guardInv_check _ _ _ _ h
    · dsimp only
      split
      · exact guardInv_exec _ _ (guardInv_cleanup _ h)
      · exact h

lemma guardInv_step (e : OrchEvent) (s : OrchState) (h : GuardInv s) :
    GuardInv (stepOrch s e) := by
  cases e with
  | startPolling => exact guardInv_startPolling s h
  | stopPolling => exact guardInv_cleanup s h
  | resetState => exact guardInv_resetState s h
  | startTaskCall m => exact guardInv_startTaskCall m s h
  | startTaskResponse ok => exact guardInv_startTaskResponse ok s h
  | fireTimer i a b c => exact guardInv_fireTimer i a b c s h
  | advance d => exact h

lemma guardInv_run (evs : List OrchEvent) : GuardInv (runOrch evs) := by
  have key : ∀ (l : List OrchEvent) (s : OrchState), GuardInv s →
      GuardInv (l.foldl stepOrch s) := by
    intro l
    induction l with
    | nil => intro s h; exact h
    | cons e rest ih => intro s h; exact ih _ (guardInv_step e s h)
  exact key evs initOrch ⟨by simp [initOrch], by simp [initOrch]⟩

/-- C1 counterexample: after `startPolling; stopPolling; startPolling`, the
two un-cancelled 1 s grace timers each install a repeating 2 s status
interval when they fire, so TWO polling loops run concurrently on one hook
instance — refuting "two polling loops never run concurrently" — and a
subsequent `stopPolling` (`cleanupPolling`) clears only the interval held in
`pollingIntervalRef`, leaving the leaked loop running. -/
theorem C1_two_polling_loops_counterexample :
    countIntervals (runOrch [OrchEvent.startPolling, OrchEvent.stopPolling,
      OrchEvent.startPolling, OrchEvent.fireTimer 0 true true false,
      OrchEvent.fireTimer 1 true true false]) = 2 ∧
    countIntervals (cleanupPolling (runOrch [OrchEvent.startPolling, OrchEvent.stopPolling,
      OrchEvent.startPolling, OrchEvent.fireTimer 0 true true false,
      OrchEvent.fireTimer 1 true true false])) = 1 := by decide

/-- C1 amended: the guard that DOES hold — while the `isPollingRef` flag is
set, `startPolling` is a no-op, so a second loop is never started while one
is flagged active; the at-most-one-loop property fails only through grace
timers that survive `stopPolling`/`startTask` (see the counterexample). -/
theorem C1_amended_startPolling_guard : ∀ s : OrchState, s.isPolling = true →
    stepOrch s OrchEvent.startPolling = s := by
  intro s h
  show startPollingFn s = s
  unfold startPollingFn
  rw [if_pos h]

/-- Witness for C1 amended: calling `startPolling` twice in a row — the
second call leaves the state unchanged. -/
theorem C1_amended_startPolling_guard_witness :
    stepOrch (runOrch [OrchEvent.startPolling]) OrchEvent.startPolling
      = runOrch [OrchEvent.startPolling] :=
  C1_amended_startPolling_guard _ (by decide)

/-- C2: for EVERY sequence of events on one hook instance, the completion
callback fires at most once between two resets of the single-fire guard
(`startTask`/`startPolling`/`resetState`); and on the concrete race trace —
a status check that reports not-working and the safety timeout processed in
the same tick — `onComplete` runs exactly once. -/
theorem C2_completion_callback_single_fire :
    (∀ evs : List OrchEvent, (runOrch evs).firesSinceReset ≤ 1) ∧
    (runOrch [OrchEvent.startPolling, OrchEvent.fireTimer 0 true true false,
      OrchEvent.fireTimer 1 true false false,
      OrchEvent.fireTimer 2 true false true]).completions = 1 :=
  ⟨fun evs => (guardInv_run evs).1, by decide⟩

/-- Observer that discards the caught-exception log counter. -/
def eraseLog (s : OrchState) : OrchState := { s with loggedErrors := 0 }

/-- C10: a throwing `onComplete` is caught inside
`executeCompletionCallback` and only logged: up to the log counter, the
resulting state is identical to the non-throwing run; the call never
touches the timers, the polling flag, the interval ref or the clock; and
since the guard flag is set before the callback is invoked, a throwing
callback still counts as fired — a second invocation in the same cycle is a
no-op. -/
theorem C10_callback_exception_contained :
    ∀ (s : OrchState) (b b' : Bool),
      eraseLog (executeCompletionCallback true s)
        = eraseLog (executeCompletionCallback false s) ∧
      (executeCompletionCallback b s).timers = s.timers ∧
      (executeCompletionCallback b s).isPolling = s.isPolling ∧
      (executeCompletionCallback b s).pollingIntervalId = s.pollingIntervalId ∧
      (executeCompletionCallback b s).now = s.now ∧
      (s.callbackFired = false → s.hasOnComplete = true →
        (executeCompletionCallback b s).callbackFired = true ∧
        (executeCompletionCallback b s).completions = s.completions + 1 ∧
        (executeCompletionCallback b s).loggedErrors
          = s.loggedErrors + (if b then 1 else 0) ∧
        executeCompletionCallback b' (executeCompletionCallback b s)
          = executeCompletionCallback b s) := by
  intro s b b'
  refine ⟨?_, ?_, ?_, ?_, ?_, ?_⟩
  · unfold executeCompletionCallback eraseLog
    split <;> rfl
  · unfold executeCompletionCallback
    split
    · split <;> rfl
    · rfl
  · unfold executeCompletionCallback
    split
    · split <;> rfl
    · rfl
  · unfold executeCompletionCallback
    split
    · split <;> rfl
    · rfl
  · unfold executeCompletionCallback
    split
    · split <;> rfl
    · rfl
  · intro h1 h2
    unfold executeCompletionCallback
    rw [h1]
    simp only [h2, Bool.not_false, Bool.and_self, if_true]
    cases b <;> simp

/-- Witness for C10: from declaration state (guard clear, callback
supplied), a throwing callback fires once, is logged, and the repeat call
changes nothing. -/
theorem C10_callback_exception_contained_witness :
    (executeCompletionCallback true initOrch).callbackFired = true ∧
    (executeCompletionCallback true initOrch).completions = initOrch.completions + 1 ∧
    (executeCompletionCallback true initOrch).loggedErrors
      = initOrch.loggedErrors + (if true then 1 else 0) ∧
    executeCompletionCallback false (executeCompletionCallback true initOrch)
      = executeCompletionCallback true initOrch :=
  (C10_callback_exception_contained initOrch true false).2.2.2.2.2 rfl rfl

/-- C9 counterexample: after `startPolling; stopPolling`, the 1 s grace
`setTimeout` is still pending (`cleanupPolling` never holds its handle);
after the grace timer has fired, `stopPolling` removes the interval but the
5 min safety `setTimeout` remains pending — refuting "no timer scheduled by
the orchestrator remains pending after stopPolling returns". -/
theorem C9_pending_timers_counterexample :
    (runOrch [OrchEvent.startPolling, OrchEvent.stopPolling]).timers
      = [{ id := 0, due := 1000, kind := TimerKind.grace }] ∧
    (runOrch [OrchEvent.startPolling, OrchEvent.stopPolling]).isPolling = false ∧
    (runOrch [OrchEvent.startPolling, OrchEvent.fireTimer 0 true true false,
      OrchEvent.stopPolling]).timers
      = [{ id := 2, due := 301000, kind := TimerKind.safety }] := by decide

/-- C9 amended: `stopPolling` (= `cleanupPolling`) always clears the
"is polling" flag and cancels exactly the repeating interval referenced by
`pollingIntervalRef` — grace and safety timeouts are not cancelled — and it
is safe when nothing is active: on the idle initial state it is a no-op. -/
theorem C9_amended_stopPolling_effect :
    (∀ s : OrchState,
      (cleanupPolling s).isPolling = false ∧
      (cleanupPolling s).pollingIntervalId = none ∧
      (cleanupPolling s).timers = (match s.pollingIntervalId with
        | some i => s.timers.filter (fun t => t.id != i)
        | none => s.timers)) ∧
    cleanupPolling initOrch = initOrch :=
  ⟨fun s => ⟨rfl, rfl, rfl⟩, rfl⟩

end PrivateAvatar
